import Mathlib

/-!
Shallow embedding of the fwupd-dbus client library (src/lib.rs) together with
the data records and helpers its update pipeline uses.  Pure computations are
translated directly from the source; external collaborators (the data-record
modules, the progress-writer crate and the digest routines) are modelled from
the specification, each marked by a doc comment.  Strings carried over the bus
are Lean `String`s; byte strings (URIs, paths) are `List Nat` of byte values,
so that the byte-offset slicing done by the source is faithfully partial.
-/

namespace Fwupd

/-- Variant value carried in an open-ended option or attribute dictionary
(the embedding of the `DynVariant` payloads appearing in the source). -/
inductive DynVar
  | str (s : String)
  | bool (b : Bool)
  | nat (n : Nat)
  | bytes (bs : List Nat)
deriving DecidableEq, Repr

/-- Model of a filesystem path (std `Path`): an absolute flag plus the list of
nonempty components, as obtained by splitting the byte string on the slash
byte 47. -/
structure PathM where
  absolute : Bool
  components : List (List Nat)
deriving DecidableEq, Repr

/-- Parse a byte string into a path: absolute iff it starts with a slash,
components are the nonempty chunks between slashes (std `Path::new`). -/
def parsePath (bytes : List Nat) : PathM :=
  { absolute := bytes.head? = some 47
    components := (bytes.splitOn 47).filter (· ≠ []) }

/-- std `Path::parent`: drop the last component; `none` when there is no
component left (empty or root path). -/
def parentPath (p : PathM) : Option PathM :=
  match p.components with
  | [] => none
  | _ :: _ => some { absolute := p.absolute, components := p.components.dropLast }

/-- std `Path::join`: an absolute right side replaces the left side, otherwise
the components are appended. -/
def joinPath (p q : PathM) : PathM :=
  if q.absolute then q
  else { absolute := p.absolute, components := p.components ++ q.components }

/-- A byte in the range 128..191 is a UTF-8 continuation byte. -/
def isUtf8Continuation (b : Nat) : Bool := 128 ≤ b && b < 192

/-- Rust `str::is_char_boundary` on the byte list: true at 0 and at the total
length, true inside the string iff the byte there is not a continuation byte,
false past the end. -/
def isCharBoundary (s : List Nat) (i : Nat) : Bool :=
  if i = 0 then true
  else if i = s.length then true
  else if i < s.length then !(isUtf8Continuation (s.getD i 0))
  else false

/-- Rust byte-offset slicing `&s[i..]`: defined (`some`) exactly when `i` is a
character boundary; `none` embeds the panic of an out-of-bounds or
mid-character slice. -/
def sliceFrom (s : List Nat) (i : Nat) : Option (List Nat) :=
  if isCharBoundary s i then some (s.drop i) else none

/-- The kinds of remotes distinguished by the source: bundled-local,
filesystem-directory, network-download, and any other daemon-defined kind. -/
inductive RemoteKind
  | local
  | directory
  | download
  | unknown
deriving DecidableEq, Repr

/-- Modelled from the spec: the Remote record (remote.rs is not under src/) —
identity, enabled flag, kind, optional base URI for rewriting release URIs,
cached-metadata file path, source URI and optional credentials. -/
structure Remote where
  remoteId : String
  enabled : Bool
  kind : RemoteKind
  firmwareBaseUri : Option (List Nat)
  uri : Option (List Nat)
  filenameCache : List Nat
  username : Option String
  password : Option String
deriving DecidableEq, Repr

/-- Modelled from the spec: a checksum advertised by a release (release.rs and
common.rs are not under src/) — an algorithm identified by its strength rank in
the fixed preference order, and the published digest bytes. -/
structure ChecksumM where
  strength : Nat
  digest : List Nat
deriving DecidableEq, Repr

/-- Modelled from the spec: the Release record (release.rs is not under src/) —
version, byte size, source URI, checksum set and owning remote identity. -/
structure Release where
  version : String
  size : Nat
  uri : List Nat
  checksums : List ChecksumM
  remoteId : String
deriving DecidableEq, Repr

/-- Modelled from the spec: the Device record (device.rs is not under src/) —
stable identity, display name, and the offline-only installation constraint
read by `device.only_offline()`. -/
structure Device where
  deviceId : String
  name : String
  onlyOffline : Bool
deriving DecidableEq, Repr

/-- The error type of the client, one constructor per variant of the source
`Error` enum; the wrapped foreign causes are erased. -/
inductive Error
  | addMatch
  | argumentMismatch (method : String)
  | call (method : String)
  | connection
  | firmwareChecksumMismatch
  | firmwareCopy
  | firmwareCreate
  | firmwareGet
  | firmwareOpen
  | firmwareRead
  | firmwareSeek
  | getProperty (property : String)
  | newMethodCall (method : String)
  | remoteNotFound
deriving DecidableEq, Repr

/-- Lifecycle notification delivered to the caller-supplied callback. -/
inductive FlashEvent
  | downloadInitiate (size : Nat)
  | downloadUpdate (progress : Nat)
  | downloadComplete
  | verifyingChecksum
  | flashInProgress
deriving DecidableEq, Repr

/-- `Client::remote`: resolve a remote identity against the enumerated remote
list (itself the fallible result of the GetRemotes call); the first remote with
a matching identity, else `RemoteNotFound`. -/
def Client.remote (fetched : Except Error (List Remote)) (id : String) :
    Except Error Remote :=
  match fetched with
  | .error e => .error e
  | .ok remotes =>
    match remotes.find? (fun r => r.remoteId == id) with
    | some r => .ok r
    | none => .error .remoteNotFound

/-- The local-or-network decision at the top of `update_device_with_release`:
for a bundled-local remote, the parent of the cached-metadata path joined with
the release URI (the `expect` panic on a parentless path is `none`); for a
filesystem-directory remote, the release URI byte-sliced at offset 7 (the
slicing panic is `none`); for every other kind, `some none` meaning the
network-fetch path is taken. -/
def resolveFilename (remote : Remote) (release : Release) :
    Option (Option PathM) :=
  match remote.kind with
  | .local =>
    match parentPath (parsePath remote.filenameCache) with
    | some parent => some (some (joinPath parent (parsePath release.uri)))
    | none => none
  | .directory =>
    match sliceFrom release.uri 7 with
    | some rest => some (some (parsePath rest))
    | none => none
  | _ => some none

/-- The bit positions of the five `InstallFlags`, as declared by the source
bitflags block: OFFLINE = 1, ALLOW_REINSTALL = 2, ALLOW_OLDER = 4, FORCE = 8,
NO_HISTORY = 16.  A flags value is the `Nat` whose bits are the set flags. -/
def InstallFlags.OFFLINE : Nat := 1
def InstallFlags.ALLOW_REINSTALL : Nat := 2
def InstallFlags.ALLOW_OLDER : Nat := 4
def InstallFlags.FORCE : Nat := 8
def InstallFlags.NO_HISTORY : Nat := 16

/-- `flags.contains(F)` for a single-bit flag at bit position `bit`. -/
def flagsContain (flags : Nat) (bit : Nat) : Bool := flags.testBit bit

/-- The option dictionary assembled by `Client::install`: the reason and
filename entries first, then one `(name, true)` pair per set flag, in the
order the source pushes them; an unset flag contributes nothing. -/
def installOptions (reason : String) (filename : PathM) (flags : Nat) :
    List (String × DynVar) :=
  [("reason", DynVar.str reason), ("filename", DynVar.bytes (filename.components.flatten))]
    ++ (if flagsContain flags 0 then [("offline", DynVar.bool true)] else [])
    ++ (if flagsContain flags 2 then [("allow-older", DynVar.bool true)] else [])
    ++ (if flagsContain flags 1 then [("allow-reinstall", DynVar.bool true)] else [])
    ++ (if flagsContain flags 3 then [("force", DynVar.bool true)] else [])
    ++ (if flagsContain flags 4 then [("no-history", DynVar.bool true)] else [])

/-- One issued Install daemon call, as recorded by the embedding: the device
identity, reason, firmware path, whether an already-open handle was supplied,
and the flags value the options were derived from. -/
structure InstallCall where
  deviceId : String
  reason : String
  filename : PathM
  handleProvided : Bool
  flags : Nat
deriving DecidableEq, Repr

/-- One issued network GET request: the resolved URI and the optional basic
authentication credentials attached to it. -/
structure RequestM where
  uri : List Nat
  auth : Option (String × Option String)
deriving DecidableEq, Repr

/-- The external world an `update_device_with_release` run interacts with:
the outcome of the GetRemotes enumeration, whether each fallible I/O step
succeeds, the chunks the network response streams (or a transport failure),
whether the copy loop fails after some number of chunks, and the digest
function the checksum validation recomputes. -/
structure World where
  remotesFetch : Except Error (List Remote)
  createOk : Bool
  fetch : Except Unit (List (List Nat))
  copyFailAfter : Option Nat
  seek1Ok : Bool
  readOk : Bool
  seek2Ok : Bool
  installOpenOk : Bool
  installCallOk : Bool
  hash : Nat → List Nat → List Nat

/-- Everything observable about one `update_device_with_release` run: the
events delivered to the callback in order, the returned result, the Install
calls issued, the network requests issued, and whether the cache file was
created. -/
structure UpdateResult where
  events : List FlashEvent
  result : Except Error Unit
  installs : List InstallCall
  requests : List RequestM
  cacheCreated : Bool

/-- Modelled from the spec: `common::find_best_checksum` (common.rs is not
under src/) — deterministically selects the strongest advertised algorithm by
its rank in the fixed preference order; `none` exactly when the release
advertises no checksum. -/
def find_best_checksum : List ChecksumM → Option ChecksumM
  | [] => none
  | c :: cs => some (cs.foldl (fun best x => if best.strength < x.strength then x else best) c)

/-- Modelled from the spec: `Remote::firmware_uri` (remote.rs is not under
src/) — with a configured base URI the release URI is rewritten onto it,
otherwise the release URI is used as the fetch URI. -/
def firmware_uri (remote : Remote) (uri : List Nat) : List Nat :=
  match remote.firmwareBaseUri with
  | some base => base ++ (uri.splitOn 47).getLastD []
  | none => uri

/-- Modelled from the spec: `common::cache_path_from_uri` (common.rs is not
under src/) — a stable cache file path derived deterministically from the
fetch URI (same URI gives the same path). -/
def cache_path_from_uri (uri : List Nat) : PathM :=
  { absolute := true, components := [[99, 97, 99, 104, 101], uri.filter (· ≠ 47)] }

/-- The chunks actually written by the copy loop: all of them on success, a
prefix when the copy fails after `k` chunks. -/
def writtenChunks (copyFailAfter : Option Nat) (chunks : List (List Nat)) :
    List (List Nat) :=
  match copyFailAfter with
  | none => chunks
  | some k => chunks.take k

/-- Cumulative byte counts reported chunk by chunk, starting from `acc`. -/
def cumSums (acc : Nat) : List Nat → List Nat
  | [] => []
  | x :: xs => (acc + x) :: cumSums (acc + x) xs

/-- The callback events produced while streaming the response body into the
cache file.  Modelled from the spec: `progress_streams::ProgressWriter` (an
external crate) invokes the wrapped callback with the cumulative byte count
after every chunk written; the source then fires `DownloadComplete`
unconditionally after the copy, whether or not it succeeded. -/
def downloadEvents (hasCallback : Bool) (written : List (List Nat)) :
    List FlashEvent :=
  if hasCallback then
    (cumSums 0 (written.map List.length)).map FlashEvent.downloadUpdate
      ++ [FlashEvent.downloadComplete]
  else []

/-- `Client::install`: when no handle is supplied the firmware file is opened
read-only (failure `FirmwareOpen`, no daemon call); then the Install method is
called with the option dictionary derived from the flags, recording the call
and surfacing a daemon failure as `Call`. -/
def Client.install (w : World) (deviceId : String) (reason : String)
    (filename : PathM) (handleProvided : Bool) (flags : Nat) :
    Except Error Unit × List InstallCall :=
  if handleProvided = false ∧ w.installOpenOk = false then
    (.error .firmwareOpen, [])
  else
    let c : InstallCall :=
      { deviceId := deviceId, reason := reason, filename := filename
        handleProvided := handleProvided, flags := flags }
    if w.installCallOk then (.ok (), [c]) else (.error (.call "Install"), [c])

/-- `Client::update_device_with_release`, step for step from the source:
remote lookup, local-or-network resolution (`none` embeds a panic), the
local-path shortcut emitting a single `FlashInProgress` before an Install call
with no handle, and otherwise the fetch pipeline: `DownloadInitiate`, URI and
cache-path computation, cache-file creation, the GET request with optional
basic auth, the chunked copy with progress events and an unconditional
`DownloadComplete`, the first rewind, `VerifyingChecksum`, best-checksum
validation, the second rewind, the offline-constraint forcing of the flags,
`FlashInProgress`, and the Install call with the open handle. -/
def update_device_with_release (w : World) (device : Device)
    (release : Release) (flags : Nat) (hasCallback : Bool) :
    Option UpdateResult :=
  match Client.remote w.remotesFetch release.remoteId with
  | .error e => some ⟨[], .error e, [], [], false⟩
  | .ok remote =>
    match resolveFilename remote release with
    | none => none
    | some (some filename) =>
      let ev := if hasCallback then [FlashEvent.flashInProgress] else []
      let (res, calls) := Client.install w device.deviceId "(user)" filename false flags
      some ⟨ev, res, calls, [], false⟩
    | some none =>
      let ev0 := if hasCallback then [FlashEvent.downloadInitiate release.size] else []
      let uri := firmware_uri remote release.uri
      let filePath := cache_path_from_uri uri
      let req : RequestM := ⟨uri, remote.username.map (fun u => (u, remote.password))⟩
      if w.createOk = false then
        some ⟨ev0, .error .firmwareCreate, [], [], false⟩
      else
        match w.fetch with
        | .error _ => some ⟨ev0, .error .firmwareGet, [], [req], true⟩
        | .ok chunks =>
          let written := writtenChunks w.copyFailAfter chunks
          let ev1 := ev0 ++ downloadEvents hasCallback written
          match w.copyFailAfter with
          | some _ => some ⟨ev1, .error .firmwareCopy, [], [req], true⟩
          | none =>
            if w.seek1Ok = false then
              some ⟨ev1, .error .firmwareSeek, [], [req], true⟩
            else
              let ev2 := ev1 ++ if hasCallback then [FlashEvent.verifyingChecksum] else []
              let content := written.flatten
              let checkOutcome : Option Error :=
                match find_best_checksum release.checksums with
                | some cs =>
                  if w.readOk = false then some .firmwareRead
                  else if w.hash cs.strength content = cs.digest then none
                  else some .firmwareChecksumMismatch
                | none => none
              match checkOutcome with
              | some e => some ⟨ev2, .error e, [], [req], true⟩
              | none =>
                if w.seek2Ok = false then
                  some ⟨ev2, .error .firmwareSeek, [], [req], true⟩
                else
                  let flags2 := if device.onlyOffline then flags ||| InstallFlags.OFFLINE else flags
                  let ev3 := ev2 ++ if hasCallback then [FlashEvent.flashInProgress] else []
                  let (res, calls) :=
                    Client.install w device.deviceId "(user)" filePath true flags2
                  some ⟨ev3, res, calls, [req], true⟩

/-- The body shapes a bus message may carry, as far as the decoding in
`listen_signals` distinguishes them: a single open-ended dictionary (what
`read1` expects), the three-part properties-changed payload (what `read3`
expects), or anything else. -/
inductive SigPayload
  | dict (entries : List (String × DynVar))
  | props (interface : String) (changed : List (String × DynVar)) (invalidated : List String)
  | other
deriving DecidableEq, Repr

/-- A bus message: its member name and its payload shape. -/
structure Message where
  member : String
  payload : SigPayload
deriving DecidableEq, Repr

/-- An item of the raw bus iterator (the `dbus` crate `ConnectionItem`). -/
inductive ConnectionItem
  | nothing
  | methodCall (m : Message)
  | methodReturn (m : Message)
  | signal (m : Message)
deriving DecidableEq, Repr

/-- Modelled from the spec: projection of a decoded attribute bag into the
Device record (device.rs is not under src/); a plain field lookup. -/
def Device.fromEntries (entries : List (String × DynVar)) : Device :=
  { deviceId :=
      match entries.find? (fun e => e.1 == "DeviceId") with
      | some (_, DynVar.str s) => s
      | _ => ""
    name :=
      match entries.find? (fun e => e.1 == "Name") with
      | some (_, DynVar.str s) => s
      | _ => ""
    onlyOffline :=
      match entries.find? (fun e => e.1 == "OnlyOffline") with
      | some (_, DynVar.bool b) => b
      | _ => false }

/-- A decoded daemon event, mirroring the source `Signal` enum. -/
inductive Signal
  | changed
  | deviceAdded (d : Device)
  | deviceChanged (d : Device)
  | deviceRemoved (d : Device)
  | propertiesChanged (interface : String) (changed : List (String × DynVar))
      (invalidated : List String)
deriving DecidableEq, Repr

/-- The inner `filter_signal` helper: keep signal-class items, drop all
others. -/
def filter_signal (ci : ConnectionItem) : Option Message :=
  match ci with
  | .signal m => some m
  | _ => none

/-- The inner `read_signal` helper: `read1` of the open-ended dictionary,
failing with `ArgumentMismatch` on any other payload shape. -/
def read_signal (m : Message) (method : String) :
    Except Error (List (String × DynVar)) :=
  match m.payload with
  | .dict entries => .ok entries
  | _ => .error (.argumentMismatch method)

/-- The member dispatch and decode in the second `filter_map` of
`listen_signals`: the five recognized member names are decoded (a decode
failure is logged and yields nothing), every other member name yields
nothing. -/
def processSignal (m : Message) : Option Signal :=
  let decoded : Option (Except Error Signal) :=
    if m.member = "Changed" then some (.ok .changed)
    else if m.member = "DeviceAdded" then
      some ((read_signal m "DeviceAdded").map (fun es => .deviceAdded (Device.fromEntries es)))
    else if m.member = "DeviceChanged" then
      some ((read_signal m "DeviceChanged").map (fun es => .deviceChanged (Device.fromEntries es)))
    else if m.member = "DeviceRemoved" then
      some ((read_signal m "DeviceRemoved").map (fun es => .deviceRemoved (Device.fromEntries es)))
    else if m.member = "PropertiesChanged" then
      some (match m.payload with
        | .props i c inv => .ok (.propertiesChanged i c inv)
        | _ => .error (.argumentMismatch "PropertiesChanged"))
    else none
  match decoded with
  | none => none
  | some (.ok s) => some s
  | some (.error _) => none

/-- `Client::listen_signals`: the underlying bus iterator is embedded as a
list pairing each arriving item with the value the shared cancellation flag
was observed to hold for it; the pipeline is the take-while on the flag
followed by the two filter-maps of the source. -/
def listen_signals (items : List (Bool × ConnectionItem)) : List Signal :=
  (((items.takeWhile (fun p => p.1)).map Prod.snd).filterMap filter_signal).filterMap
    processSignal

/-- The single-item composition of the two filter-map stages. -/
def processStep (ci : ConnectionItem) : Option Signal :=
  (filter_signal ci).bind processSignal

/-- Whether a member name is one of the five recognized signal names. -/
def recognizedMember (s : String) : Bool :=
  s = "Changed" || s = "DeviceAdded" || s = "DeviceChanged" || s = "DeviceRemoved"
    || s = "PropertiesChanged"

/-- Whether the payload of a message has the shape its member name's decoder
expects: any shape for `Changed`, the open-ended dictionary for the three
device signals, the three-part payload for `PropertiesChanged`. -/
def decodeShapeOk (m : Message) : Bool :=
  if m.member = "Changed" then true
  else if m.member = "DeviceAdded" || m.member = "DeviceChanged"
      || m.member = "DeviceRemoved" then
    match m.payload with
    | .dict _ => true
    | _ => false
  else if m.member = "PropertiesChanged" then
    match m.payload with
    | .props _ _ _ => true
    | _ => false
  else false

/-- The Resolver local-path outcome, defined independently from the words of
the specification: for a bundled-local remote, the parent directory of the
cached-metadata file path joined with the release URI; for a
filesystem-directory remote, the release URI with its first 7 characters
removed; no local path for any other kind. -/
def resolveLocalPathSpec (remote : Remote) (release : Release) : Option PathM :=
  match remote.kind with
  | .local =>
    (parentPath (parsePath remote.filenameCache)).map
      (fun parent => joinPath parent (parsePath release.uri))
  | .directory => some (parsePath (release.uri.drop 7))
  | _ => none

/-- Number of entries of the option dictionary carrying the given name. -/
def optCount (name : String) (opts : List (String × DynVar)) : Nat :=
  opts.countP (fun p => p.1 == name)

section Helpers

lemma takeWhile_append_of_false {α : Type _} (p : α → Bool) (l₁ : List α) (x : α)
    (l₂ : List α) (hx : p x = false) :
    (l₁ ++ x :: l₂).takeWhile p = l₁.takeWhile p := by
  induction l₁ with
  | nil => simp [List.takeWhile_cons, hx]
  | cons a l ih =>
    simp only [List.cons_append, List.takeWhile_cons]
    cases p a <;> simp [ih]

lemma cumSums_chain' (acc : Nat) (l : List Nat) :
    List.Chain' (· ≤ ·) (cumSums acc l) := by
  induction l generalizing acc with
  | nil => simp [cumSums]
  | cons x xs ih =>
    rw [cumSums]
    refine List.Chain'.cons' (ih (acc + x)) ?_
    intro y hy
    cases xs with
    | nil => simp [cumSums] at hy
    | cons z zs =>
      rw [cumSums, List.head?_cons, Option.mem_def, Option.some.injEq] at hy
      omega

lemma cumSums_getLastD (acc : Nat) (l : List Nat) :
    (cumSums acc l).getLastD acc = acc + l.sum := by
  induction l generalizing acc with
  | nil => simp [cumSums]
  | cons x xs ih =>
    rw [cumSums, List.getLastD_cons, ih (acc + x), List.sum_cons]
    omega

end Helpers

/-- C5: the signal sequence yields no element at or after the first position
where the cancellation flag is observed false — the item whose flag load
returned false is dropped before any filtering or decoding, and nothing after
it is consumed. -/
theorem C5_cancellation (l₁ : List (Bool × ConnectionItem)) (m : ConnectionItem)
    (l₂ : List (Bool × ConnectionItem)) :
    listen_signals (l₁ ++ (false, m) :: l₂) = listen_signals l₁ := by
  unfold listen_signals
  rw [takeWhile_append_of_false (fun p => p.1) l₁ (false, m) l₂ rfl]

/-- C6: every yielded element originates from a signal-class item whose member
name is one of the five recognized names and whose payload has the shape its
decoder expects; and any item the pipeline maps to nothing — a non-signal
item, an unrecognized member, or a decode failure — is skipped without
terminating the sequence. -/
theorem C6_filtering :
    (∀ (ci : ConnectionItem) (s : Signal), processStep ci = some s →
      ∃ m, ci = ConnectionItem.signal m ∧ recognizedMember m.member = true
        ∧ decodeShapeOk m = true)
    ∧ (∀ (ci : ConnectionItem) (rest : List (Bool × ConnectionItem)),
      processStep ci = none →
      listen_signals ((true, ci) :: rest) = listen_signals rest) := by
  constructor
  · intro ci s h
    match ci with
    | .nothing => simp [processStep, filter_signal] at h
    | .methodCall m => simp [processStep, filter_signal] at h
    | .methodReturn m => simp [processStep, filter_signal] at h
    | .signal m =>
      refine ⟨m, rfl, ?_⟩
      rw [processStep, filter_signal, Option.some_bind] at h
      rw [processSignal] at h
      by_cases h1 : m.member = "Changed"
      · simp [recognizedMember, decodeShapeOk, h1]
      by_cases h2 : m.member = "DeviceAdded"
      · rw [if_neg h1, if_pos h2] at h
        cases hp : m.payload with
        | dict es => simp [recognizedMember, decodeShapeOk, h1, h2, hp]
        | props i c inv => rw [read_signal.eq_def, hp] at h; simp [Except.map] at h
        | other => rw [read_signal.eq_def, hp] at h; simp [Except.map] at h
      by_cases h3 : m.member = "DeviceChanged"
      · rw [if_neg h1, if_neg h2, if_pos h3] at h
        cases hp : m.payload with
        | dict es => simp [recognizedMember, decodeShapeOk, h1, h2, h3, hp]
        | props i c inv => rw [read_signal.eq_def, hp] at h; simp [Except.map] at h
        | other => rw [read_signal.eq_def, hp] at h; simp [Except.map] at h
      by_cases h4 : m.member = "DeviceRemoved"
      · rw [if_neg h1, if_neg h2, if_neg h3, if_pos h4] at h
        cases hp : m.payload with
        | dict es => simp [recognizedMember, decodeShapeOk, h1, h2, h3, h4, hp]
        | props i c inv => rw [read_signal.eq_def, hp] at h; simp [Except.map] at h
        | other => rw [read_signal.eq_def, hp] at h; simp [Except.map] at h
      by_cases h5 : m.member = "PropertiesChanged"
      · rw [if_neg h1, if_neg h2, if_neg h3, if_neg h4, if_pos h5] at h
        cases hp : m.payload with
        | dict es => rw [hp] at h; simp at h
        | props i c inv => simp [recognizedMember, decodeShapeOk, h1, h2, h3, h4, h5, hp]
        | other => rw [hp] at h; simp at h
      · simp [h1, h2, h3, h4, h5] at h
  · intro ci rest h
    have hcons : (((true, ci) :: rest).takeWhile (fun p => p.1)).map Prod.snd
        = ci :: (rest.takeWhile (fun p => p.1)).map Prod.snd := by
      simp [List.takeWhile_cons]
    unfold listen_signals
    rw [hcons]
    cases hf : filter_signal ci with
    | none => rw [List.filterMap_cons_none hf]
    | some m =>
      rw [List.filterMap_cons_some hf]
      rw [processStep, hf, Option.some_bind] at h
      rw [List.filterMap_cons_none h]

/-- C8: whenever the local-or-network resolution does not panic, it computes
exactly the outcome the specification words describe — for a bundled-local
remote the parent of the cached-metadata path joined with the release URI, for
a filesystem-directory remote the release URI with its first 7 characters
stripped, and no local path for any other kind. -/
theorem C8_resolver (remote : Remote) (release : Release)
    (h : resolveFilename remote release ≠ none) :
    resolveFilename remote release = some (resolveLocalPathSpec remote release) := by
  unfold resolveFilename resolveLocalPathSpec at *
  cases hk : remote.kind with
  | «local» =>
    rw [hk] at h
    cases hp : parentPath (parsePath remote.filenameCache) with
    | none => rw [hp] at h; exact absurd rfl h
    | some parent => rfl
  | directory =>
    rw [hk] at h
    by_cases hb : isCharBoundary release.uri 7 = true
    · have hs : sliceFrom release.uri 7 = some (release.uri.drop 7) := by
        unfold sliceFrom; rw [if_pos hb]
      rw [hs]
    · have hs : sliceFrom release.uri 7 = none := by
        unfold sliceFrom; rw [if_neg hb]
      rw [hs] at h; exact absurd rfl h
  | download => rfl
  | unknown => rfl

/-- C8 witness: at a filesystem-directory remote whose release URI is the
nine bytes of the text file:///a, the resolver result agrees with the
spec-worded computation. -/
theorem C8_resolver_witness :
    resolveFilename ⟨"r", true, .directory, none, none, [], none, none⟩
        ⟨"1.0", 9, [102, 105, 108, 101, 58, 47, 47, 47, 97], [], "r"⟩
      = some (resolveLocalPathSpec ⟨"r", true, .directory, none, none, [], none, none⟩
        ⟨"1.0", 9, [102, 105, 108, 101, 58, 47, 47, 47, 97], [], "r"⟩) :=
  C8_resolver _ _ (by decide)

/-- C9: with a successfully enumerated remote list, a lookup whose identity
matches no listed remote fails with RemoteNotFound, and RemoteNotFound is the
only error the lookup itself can produce. -/
theorem C9_remote_lookup :
    (∀ (rs : List Remote) (id : String), (∀ r ∈ rs, r.remoteId ≠ id) →
      Client.remote (.ok rs) id = .error .remoteNotFound)
    ∧ (∀ (rs : List Remote) (id : String) (e : Error),
      Client.remote (.ok rs) id = .error e → e = .remoteNotFound) := by
  constructor
  · intro rs id h
    have hfind : rs.find? (fun r => r.remoteId == id) = none := by
      rw [List.find?_eq_none]
      intro r hr
      simpa using h r hr
    simp [Client.remote, hfind]
  · intro rs id e h
    simp only [Client.remote] at h
    cases hfind : rs.find? (fun r => r.remoteId == id) with
    | some r => rw [hfind] at h; cases h
    | none =>
      rw [hfind] at h
      cases h
      rfl

/-- C9 witness: a concrete lookup against a one-element remote list with a
non-matching identity produces RemoteNotFound. -/
theorem C9_remote_lookup_witness :
    Client.remote (.ok [⟨"lvfs", true, .download, none, none, [], none, none⟩])
      "testing" = .error .remoteNotFound :=
  C9_remote_lookup.1 _ _ (by decide)

/-- C10: the local-path resolution is partial exactly as claimed — for a
filesystem-directory remote it panics precisely when byte offset 7 is not a
character boundary of the release URI (in particular whenever the URI is
shorter than 7 bytes), for a bundled-local remote it panics precisely when the
cached-metadata path has no parent, and a panic in the resolution makes the
whole update run panic rather than return an error. -/
theorem C10_partiality :
    (∀ (remote : Remote) (release : Release), remote.kind = RemoteKind.directory →
      (resolveFilename remote release = none ↔ isCharBoundary release.uri 7 = false))
    ∧ (∀ uri : List Nat, uri.length < 7 → isCharBoundary uri 7 = false)
    ∧ (∀ (remote : Remote) (release : Release), remote.kind = RemoteKind.local →
      (resolveFilename remote release = none
        ↔ parentPath (parsePath remote.filenameCache) = none))
    ∧ (∀ (w : World) (device : Device) (release : Release) (flags : Nat)
        (hasCallback : Bool) (remote : Remote),
      Client.remote w.remotesFetch release.remoteId = .ok remote →
      resolveFilename remote release = none →
      update_device_with_release w device release flags hasCallback = none) := by
  refine ⟨?_, ?_, ?_, ?_⟩
  · intro remote release hk
    unfold resolveFilename sliceFrom
    rw [hk]
    by_cases hb : isCharBoundary release.uri 7 = true
    · simp [hb]
    · simp [hb]
  · intro uri hlen
    unfold isCharBoundary
    rw [if_neg (by omega), if_neg (by omega), if_neg (by omega)]
  · intro remote release hk
    unfold resolveFilename
    rw [hk]
    cases hp : parentPath (parsePath remote.filenameCache) with
    | none => simp
    | some parent => simp
  · intro w device release flags hasCallback remote hlook hres
    simp only [update_device_with_release, hlook, hres]

/-- C10 witness: a two-byte release URI on a filesystem-directory remote makes
the concrete update run panic (the embedding returns none, not an error). -/
theorem C10_partiality_witness :
    update_device_with_release
      ⟨.ok [⟨"r", true, .directory, none, none, [], none, none⟩], true, .ok [],
        none, true, true, true, true, true, fun _ _ => []⟩
      ⟨"d", "n", false⟩ ⟨"1.0", 2, [102, 105], [], "r"⟩ 0 false = none :=
  C10_partiality.2.2.2 _ _ _ _ _ _ rfl
    ((C10_partiality.1 _ _ rfl).mpr (C10_partiality.2.1 [102, 105] (by decide)))

/-- C7: for every flags value, each of the five recognized flags maps to
exactly one named option — the `(name, true)` pair is in the option list iff
the corresponding bit is set, the list carries exactly one entry of that name
when the bit is set, and no entry of that name at all (in particular none with
value false) when the bit is unset. -/
theorem C7_flag_options (reason : String) (filename : PathM) (flags : Nat) :
    ((("offline", DynVar.bool true) ∈ installOptions reason filename flags
        ↔ flags.testBit 0 = true)
      ∧ optCount "offline" (installOptions reason filename flags)
        = (if flags.testBit 0 then 1 else 0))
    ∧ ((("allow-older", DynVar.bool true) ∈ installOptions reason filename flags
        ↔ flags.testBit 2 = true)
      ∧ optCount "allow-older" (installOptions reason filename flags)
        = (if flags.testBit 2 then 1 else 0))
    ∧ ((("allow-reinstall", DynVar.bool true) ∈ installOptions reason filename flags
        ↔ flags.testBit 1 = true)
      ∧ optCount "allow-reinstall" (installOptions reason filename flags)
        = (if flags.testBit 1 then 1 else 0))
    ∧ ((("force", DynVar.bool true) ∈ installOptions reason filename flags
        ↔ flags.testBit 3 = true)
      ∧ optCount "force" (installOptions reason filename flags)
        = (if flags.testBit 3 then 1 else 0))
    ∧ ((("no-history", DynVar.bool true) ∈ installOptions reason filename flags
        ↔ flags.testBit 4 = true)
      ∧ optCount "no-history" (installOptions reason filename flags)
        = (if flags.testBit 4 then 1 else 0)) := by
  by_cases h0 : flags.testBit 0 = true <;> by_cases h1 : flags.testBit 1 = true <;>
    by_cases h2 : flags.testBit 2 = true <;> by_cases h3 : flags.testBit 3 = true <;>
    by_cases h4 : flags.testBit 4 = true <;>
    simp [installOptions, flagsContain, optCount, h0, h1, h2, h3, h4,
      List.countP_cons, List.countP_append]

/-- C6 witness: a concrete DeviceAdded signal with a dictionary payload is
traced back to a recognized, well-shaped signal message, and a concrete
method-return item is skipped without affecting the rest of the sequence. -/
theorem C6_filtering_witness :
    (∃ m, ConnectionItem.signal ⟨"DeviceAdded", SigPayload.dict []⟩
        = ConnectionItem.signal m
      ∧ recognizedMember m.member = true ∧ decodeShapeOk m = true)
    ∧ listen_signals
        [(true, ConnectionItem.methodReturn ⟨"Changed", SigPayload.other⟩),
          (true, ConnectionItem.signal ⟨"Changed", SigPayload.other⟩)]
      = listen_signals [(true, ConnectionItem.signal ⟨"Changed", SigPayload.other⟩)] :=
  ⟨C6_filtering.1 (ConnectionItem.signal ⟨"DeviceAdded", SigPayload.dict []⟩)
      (Signal.deviceAdded (Device.fromEntries [])) (by decide),
    C6_filtering.2 (ConnectionItem.methodReturn ⟨"Changed", SigPayload.other⟩)
      [(true, ConnectionItem.signal ⟨"Changed", SigPayload.other⟩)] (by decide)⟩

/-- C3: when the resolved remote is bundled-local or filesystem-directory and
the resolution does not panic, the run issues no network request, creates no
cache file, and the only callback event before the install is a single
FlashInProgress (none at all without a callback). -/
theorem C3_local_path (w : World) (device : Device) (release : Release)
    (flags : Nat) (hasCallback : Bool) (remote : Remote)
    (hlook : Client.remote w.remotesFetch release.remoteId = .ok remote)
    (hkind : remote.kind = RemoteKind.local ∨ remote.kind = RemoteKind.directory)
    (hnp : resolveFilename remote release ≠ none) :
    (update_device_with_release w device release flags hasCallback).map
        UpdateResult.requests = some []
    ∧ (update_device_with_release w device release flags hasCallback).map
        UpdateResult.cacheCreated = some false
    ∧ (update_device_with_release w device release flags hasCallback).map
        UpdateResult.events
      = some (if hasCallback then [FlashEvent.flashInProgress] else []) := by
  have hsome : ∃ p, resolveFilename remote release = some (some p) := by
    rcases hkind with hk | hk
    · unfold resolveFilename at *
      rw [hk] at hnp ⊢
      cases hp : parentPath (parsePath remote.filenameCache) with
      | none => rw [hp] at hnp; exact absurd rfl hnp
      | some parent => exact ⟨_, rfl⟩
    · unfold resolveFilename sliceFrom at *
      rw [hk] at hnp ⊢
      by_cases hb : isCharBoundary release.uri 7 = true
      · exact ⟨_, by rw [if_pos hb]⟩
      · rw [if_neg hb] at hnp; exact absurd rfl hnp
  obtain ⟨p, hp⟩ := hsome
  rcases hinstall : Client.install w device.deviceId "(user)" p false flags
    with ⟨res0, calls⟩
  simp only [update_device_with_release, hlook, hp, hinstall]
  exact ⟨rfl, rfl, rfl⟩

/-- C3 witness: a concrete filesystem-directory remote run, with a callback,
performs no request, creates no cache file, and emits exactly one
FlashInProgress. -/
theorem C3_local_path_witness :
    (update_device_with_release
        ⟨.ok [⟨"r", true, .directory, none, none, [], none, none⟩], true, .ok [],
          none, true, true, true, true, true, fun _ _ => []⟩
        ⟨"d", "n", false⟩ ⟨"1.0", 9, [102, 105, 108, 101, 58, 47, 47, 47, 97], [], "r"⟩
        0 true).map UpdateResult.requests = some []
    ∧ (update_device_with_release
        ⟨.ok [⟨"r", true, .directory, none, none, [], none, none⟩], true, .ok [],
          none, true, true, true, true, true, fun _ _ => []⟩
        ⟨"d", "n", false⟩ ⟨"1.0", 9, [102, 105, 108, 101, 58, 47, 47, 47, 97], [], "r"⟩
        0 true).map UpdateResult.cacheCreated = some false
    ∧ (update_device_with_release
        ⟨.ok [⟨"r", true, .directory, none, none, [], none, none⟩], true, .ok [],
          none, true, true, true, true, true, fun _ _ => []⟩
        ⟨"d", "n", false⟩ ⟨"1.0", 9, [102, 105, 108, 101, 58, 47, 47, 47, 97], [], "r"⟩
        0 true).map UpdateResult.events
      = some (if true then [FlashEvent.flashInProgress] else []) :=
  C3_local_path _ _ _ _ _ _ rfl (Or.inr rfl) (by decide)

lemma install_calls_eq (w : World) (id reason : String) (p : PathM)
    (handleProvided : Bool) (flags : Nat) :
    ∀ c ∈ (Client.install w id reason p handleProvided flags).2,
      c = ⟨id, reason, p, handleProvided, flags⟩ := by
  unfold Client.install
  by_cases h1 : handleProvided = false ∧ w.installOpenOk = false
  · rw [if_pos h1]; intro c hc; cases hc
  · rw [if_neg h1]
    by_cases h2 : w.installCallOk = true
    · rw [if_pos h2]; intro c hc; simpa using hc
    · rw [if_neg h2]; intro c hc; simpa using hc

/-- C1 counterexample: an offline-only device updated from a
filesystem-directory remote (the local path) — the run issues exactly one
Install call, its flags are the caller's unchanged flags 0, and its option
list carries no offline entry at all, so the outgoing request does not contain
the offline option even though the device has the offline-only constraint. -/
theorem C1_counterexample :
    (⟨"d", "n", true⟩ : Device).onlyOffline = true
    ∧ (update_device_with_release
        ⟨.ok [⟨"r", true, .directory, none, none, [], none, none⟩], true, .ok [],
          none, true, true, true, true, true, fun _ _ => []⟩
        ⟨"d", "n", true⟩ ⟨"1.0", 9, [102, 105, 108, 101, 58, 47, 47, 47, 97], [], "r"⟩
        0 true).map UpdateResult.installs
      = some [⟨"d", "(user)", ⟨true, [[97]]⟩, false, 0⟩]
    ∧ optCount "offline"
        (installOptions "(user)" (⟨true, [[97]]⟩ : PathM) 0) = 0 := by
  refine ⟨rfl, ?_, by decide⟩
  decide

/-- C1 as amended: on the network-fetch path (the resolved remote's kind is
neither bundled-local nor filesystem-directory), an offline-only device makes
every Install call the run issues carry the offline option set to true,
regardless of the caller's flags.  On the local path the caller's flags are
forwarded unchanged, as the counterexample shows. -/
theorem C1_offline_forced_on_fetch_path (w : World) (device : Device)
    (release : Release) (flags : Nat) (hasCallback : Bool) (remote : Remote)
    (hoff : device.onlyOffline = true)
    (hlook : Client.remote w.remotesFetch release.remoteId = .ok remote)
    (hnet : resolveFilename remote release = some none) :
    ∀ c ∈ (update_device_with_release w device release flags hasCallback).elim []
        UpdateResult.installs,
      ("offline", DynVar.bool true) ∈ installOptions c.reason c.filename c.flags := by
  simp only [update_device_with_release, hlook, hnet]
  by_cases hc : w.createOk = false
  · simp [hc]
  rw [if_neg hc]
  cases hf : w.fetch with
  | error e => dsimp only; simp
  | ok chunks =>
    dsimp only
    cases hcf : w.copyFailAfter with
    | some k => dsimp only; simp
    | none =>
      dsimp only
      by_cases hs1 : w.seek1Ok = false
      · simp [hs1]
      rw [if_neg hs1]
      cases hfb : find_best_checksum release.checksums with
      | some cs =>
        dsimp only
        by_cases hr : w.readOk = false
        · simp [hr]
        rw [if_neg hr]
        by_cases hh : w.hash cs.strength (writtenChunks none chunks).flatten
            = cs.digest
        · rw [if_pos hh]
          dsimp only
          by_cases hs2 : w.seek2Ok = false
          · simp [hs2]
          rw [if_neg hs2, hoff, if_pos (rfl : true = true)]
          rcases hi : Client.install w device.deviceId "(user)"
              (cache_path_from_uri (firmware_uri remote release.uri)) true
              (flags ||| InstallFlags.OFFLINE) with ⟨res0, calls⟩
          dsimp only
          intro c hcm
          simp only [Option.elim] at hcm
          have hceq := install_calls_eq w device.deviceId "(user)"
            (cache_path_from_uri (firmware_uri remote release.uri)) true
            (flags ||| InstallFlags.OFFLINE) c
          rw [hi] at hceq
          have hc2 := hceq hcm
          subst hc2
          have ht1 : Nat.testBit 1 0 = true := rfl
          simp [installOptions, flagsContain, InstallFlags.OFFLINE, Nat.testBit_or, ht1]
        · rw [if_neg hh]
          dsimp only
          simp
      | none =>
        dsimp only
        by_cases hs2 : w.seek2Ok = false
        · simp [hs2]
        rw [if_neg hs2, hoff, if_pos (rfl : true = true)]
        rcases hi : Client.install w device.deviceId "(user)"
            (cache_path_from_uri (firmware_uri remote release.uri)) true
            (flags ||| InstallFlags.OFFLINE) with ⟨res0, calls⟩
        dsimp only
        intro c hcm
        simp only [Option.elim] at hcm
        have hceq := install_calls_eq w device.deviceId "(user)"
          (cache_path_from_uri (firmware_uri remote release.uri)) true
          (flags ||| InstallFlags.OFFLINE) c
        rw [hi] at hceq
        have hc2 := hceq hcm
        subst hc2
        have ht1 : Nat.testBit 1 0 = true := rfl
        simp [installOptions, flagsContain, InstallFlags.OFFLINE, Nat.testBit_or, ht1]

/-- C1 witness: a concrete offline-only device updated from a
network-download remote with caller flags 0 — the single Install call issued
carries the offline option. -/
theorem C1_offline_forced_on_fetch_path_witness :
    ("offline", DynVar.bool true)
      ∈ installOptions "(user)"
        (cache_path_from_uri (firmware_uri
          ⟨"r", true, .download, none, none, [], none, none⟩ [104, 47, 120])) 1 :=
  C1_offline_forced_on_fetch_path
    ⟨.ok [⟨"r", true, .download, none, none, [], none, none⟩], true, .ok [[1, 2]],
      none, true, true, true, true, true, fun _ c => c⟩
    ⟨"d", "n", true⟩ ⟨"1.0", 2, [104, 47, 120], [], "r"⟩ 0 true
    ⟨"r", true, .download, none, none, [], none, none⟩ rfl rfl rfl
    ⟨"d", "(user)",
      cache_path_from_uri (firmware_uri
        ⟨"r", true, .download, none, none, [], none, none⟩ [104, 47, 120]),
      true, 1⟩ (by decide)

/-- C2: after a completed download and rewind — a release advertising at
least one checksum whose recomputed digest differs from the published one
makes the run return FirmwareChecksumMismatch (a variant distinct from
FirmwareGet and FirmwareCopy) with no Install call issued; a release with no
checksum skips verification and proceeds to the install, which succeeds. -/
theorem C2_checksum_verification (w : World) (device : Device) (release : Release)
    (flags : Nat) (hasCallback : Bool) (remote : Remote) (chunks : List (List Nat))
    (hlook : Client.remote w.remotesFetch release.remoteId = .ok remote)
    (hnet : resolveFilename remote release = some none)
    (hcreate : w.createOk = true)
    (hfetch : w.fetch = .ok chunks)
    (hcopy : w.copyFailAfter = none)
    (hseek1 : w.seek1Ok = true) :
    (Error.firmwareChecksumMismatch ≠ Error.firmwareGet
      ∧ Error.firmwareChecksumMismatch ≠ Error.firmwareCopy)
    ∧ (∀ cs, find_best_checksum release.checksums = some cs →
        w.readOk = true →
        w.hash cs.strength chunks.flatten ≠ cs.digest →
        (update_device_with_release w device release flags hasCallback).map
            UpdateResult.result = some (.error .firmwareChecksumMismatch)
        ∧ (update_device_with_release w device release flags hasCallback).map
            UpdateResult.installs = some [])
    ∧ (release.checksums = [] → w.seek2Ok = true → w.installCallOk = true →
        (update_device_with_release w device release flags hasCallback).map
            UpdateResult.result = some (.ok ())
        ∧ (update_device_with_release w device release flags hasCallback).map
            (fun r => r.installs.length) = some 1) := by
  refine ⟨⟨by decide, by decide⟩, ?_, ?_⟩
  · intro cs hcs hread hne
    simp only [update_device_with_release, hlook, hnet]
    rw [if_neg (by simp [hcreate])]
    simp only [hfetch]
    simp only [hcopy]
    rw [if_neg (by simp [hseek1])]
    simp only [hcs]
    rw [if_neg (by simp [hread])]
    rw [if_neg (by simpa [writtenChunks] using hne)]
    dsimp only
    exact ⟨rfl, rfl⟩
  · intro hcs hseek2 hic
    have hfb : find_best_checksum release.checksums = none := by rw [hcs]; rfl
    simp only [update_device_with_release, hlook, hnet]
    rw [if_neg (by simp [hcreate])]
    simp only [hfetch]
    simp only [hcopy]
    rw [if_neg (by simp [hseek1])]
    simp only [hfb]
    rw [if_neg (by simp [hseek2])]
    unfold Client.install
    have hno : ¬(true = false ∧ w.installOpenOk = false) := by simp
    rw [if_neg hno, if_pos hic]
    exact ⟨rfl, rfl⟩

/-- C2 witness: with a served body [1] against a published digest [9] (the
digest function being the identity on the content), the concrete run aborts
with FirmwareChecksumMismatch and issues no Install call; with no advertised
checksum the same run reaches the Install call and succeeds. -/
theorem C2_checksum_verification_witness :
    ((update_device_with_release
        ⟨.ok [⟨"r", true, .download, none, none, [], none, none⟩], true, .ok [[1]],
          none, true, true, true, true, true, fun _ c => c⟩
        ⟨"d", "n", false⟩ ⟨"1.0", 1, [104, 47, 120], [⟨0, [9]⟩], "r"⟩ 0 true).map
          UpdateResult.result = some (.error .firmwareChecksumMismatch)
      ∧ (update_device_with_release
        ⟨.ok [⟨"r", true, .download, none, none, [], none, none⟩], true, .ok [[1]],
          none, true, true, true, true, true, fun _ c => c⟩
        ⟨"d", "n", false⟩ ⟨"1.0", 1, [104, 47, 120], [⟨0, [9]⟩], "r"⟩ 0 true).map
          UpdateResult.installs = some [])
    ∧ ((update_device_with_release
        ⟨.ok [⟨"r", true, .download, none, none, [], none, none⟩], true, .ok [[1]],
          none, true, true, true, true, true, fun _ c => c⟩
        ⟨"d", "n", false⟩ ⟨"1.0", 1, [104, 47, 120], [], "r"⟩ 0 true).map
          UpdateResult.result = some (.ok ())
      ∧ (update_device_with_release
        ⟨.ok [⟨"r", true, .download, none, none, [], none, none⟩], true, .ok [[1]],
          none, true, true, true, true, true, fun _ c => c⟩
        ⟨"d", "n", false⟩ ⟨"1.0", 1, [104, 47, 120], [], "r"⟩ 0 true).map
          (fun r => r.installs.length) = some 1) :=
  ⟨(C2_checksum_verification
      ⟨.ok [⟨"r", true, .download, none, none, [], none, none⟩], true, .ok [[1]],
        none, true, true, true, true, true, fun _ c => c⟩
      ⟨"d", "n", false⟩ ⟨"1.0", 1, [104, 47, 120], [⟨0, [9]⟩], "r"⟩ 0 true
      ⟨"r", true, .download, none, none, [], none, none⟩ [[1]]
      rfl rfl rfl rfl rfl rfl).2.1 ⟨0, [9]⟩ rfl rfl (by decide),
    (C2_checksum_verification
      ⟨.ok [⟨"r", true, .download, none, none, [], none, none⟩], true, .ok [[1]],
        none, true, true, true, true, true, fun _ c => c⟩
      ⟨"d", "n", false⟩ ⟨"1.0", 1, [104, 47, 120], [], "r"⟩ 0 true
      ⟨"r", true, .download, none, none, [], none, none⟩ [[1]]
      rfl rfl rfl rfl rfl rfl).2.2 rfl rfl rfl⟩

/-- C5 witness: a concrete sequence in which the flag is observed false on
the second message yields exactly the events of the first message alone. -/
theorem C5_cancellation_witness :
    listen_signals
      [(true, ConnectionItem.signal ⟨"Changed", SigPayload.other⟩),
        (false, ConnectionItem.signal ⟨"Changed", SigPayload.other⟩),
        (true, ConnectionItem.signal ⟨"Changed", SigPayload.other⟩)]
      = listen_signals [(true, ConnectionItem.signal ⟨"Changed", SigPayload.other⟩)] :=
  C5_cancellation [(true, ConnectionItem.signal ⟨"Changed", SigPayload.other⟩)]
    (ConnectionItem.signal ⟨"Changed", SigPayload.other⟩)
    [(true, ConnectionItem.signal ⟨"Changed", SigPayload.other⟩)]

/-- C7 witness: the flag mapping instantiated at the flags value 21
(offline, allow-older and no-history set). -/
theorem C7_flag_options_witness :
    ((("offline", DynVar.bool true) ∈ installOptions "(user)" ⟨true, [[97]]⟩ 21
        ↔ Nat.testBit 21 0 = true)
      ∧ optCount "offline" (installOptions "(user)" ⟨true, [[97]]⟩ 21)
        = (if Nat.testBit 21 0 then 1 else 0))
    ∧ ((("allow-older", DynVar.bool true) ∈ installOptions "(user)" ⟨true, [[97]]⟩ 21
        ↔ Nat.testBit 21 2 = true)
      ∧ optCount "allow-older" (installOptions "(user)" ⟨true, [[97]]⟩ 21)
        = (if Nat.testBit 21 2 then 1 else 0))
    ∧ ((("allow-reinstall", DynVar.bool true) ∈ installOptions "(user)" ⟨true, [[97]]⟩ 21
        ↔ Nat.testBit 21 1 = true)
      ∧ optCount "allow-reinstall" (installOptions "(user)" ⟨true, [[97]]⟩ 21)
        = (if Nat.testBit 21 1 then 1 else 0))
    ∧ ((("force", DynVar.bool true) ∈ installOptions "(user)" ⟨true, [[97]]⟩ 21
        ↔ Nat.testBit 21 3 = true)
      ∧ optCount "force" (installOptions "(user)" ⟨true, [[97]]⟩ 21)
        = (if Nat.testBit 21 3 then 1 else 0))
    ∧ ((("no-history", DynVar.bool true) ∈ installOptions "(user)" ⟨true, [[97]]⟩ 21
        ↔ Nat.testBit 21 4 = true)
      ∧ optCount "no-history" (installOptions "(user)" ⟨true, [[97]]⟩ 21)
        = (if Nat.testBit 21 4 then 1 else 0)) :=
  C7_flag_options "(user)" ⟨true, [[97]]⟩ 21

lemma countP_events (s : Nat) (updates : List Nat) (rest : List FlashEvent)
    (hrest : ∀ e ∈ rest,
      e = FlashEvent.verifyingChecksum ∨ e = FlashEvent.flashInProgress) :
    ((FlashEvent.downloadInitiate s :: (updates.map FlashEvent.downloadUpdate
        ++ FlashEvent.downloadComplete :: rest)).countP
      (fun e => e == FlashEvent.downloadInitiate s) = 1)
    ∧ ((FlashEvent.downloadInitiate s :: (updates.map FlashEvent.downloadUpdate
        ++ FlashEvent.downloadComplete :: rest)).countP
      (fun e => e == FlashEvent.downloadComplete) = 1) := by
  have hu1 : (updates.map FlashEvent.downloadUpdate).countP
      (fun e => e == FlashEvent.downloadInitiate s) = 0 := by
    rw [List.countP_eq_zero]
    intro a ha
    obtain ⟨u, hu, rfl⟩ := List.mem_map.mp ha
    simp
  have hu2 : (updates.map FlashEvent.downloadUpdate).countP
      (fun e => e == FlashEvent.downloadComplete) = 0 := by
    rw [List.countP_eq_zero]
    intro a ha
    obtain ⟨u, hu, rfl⟩ := List.mem_map.mp ha
    simp
  have hr1 : rest.countP (fun e => e == FlashEvent.downloadInitiate s) = 0 := by
    rw [List.countP_eq_zero]
    intro a ha
    rcases hrest a ha with h | h <;> subst h <;> simp
  have hr2 : rest.countP (fun e => e == FlashEvent.downloadComplete) = 0 := by
    rw [List.countP_eq_zero]
    intro a ha
    rcases hrest a ha with h | h <;> subst h <;> simp
  constructor
  · rw [List.countP_cons, List.countP_append, List.countP_cons, hu1, hr1]
    simp
  · rw [List.countP_cons, List.countP_append, List.countP_cons, hu2, hr2]
    simp

/-- C4: every network-path run with a callback delivers exactly one
DownloadInitiate carrying the release size as the very first event and exactly
one DownloadComplete immediately after the progress events; the progress
values in between are monotonically non-decreasing cumulative byte counts
whose final value is the total number of bytes written, and the only events
after DownloadComplete are the later pipeline stages (VerifyingChecksum,
FlashInProgress), in that relative position — no download event is duplicated
or reordered. -/
theorem C4_download_progress (w : World) (device : Device) (release : Release)
    (flags : Nat) (remote : Remote) (chunks : List (List Nat))
    (hlook : Client.remote w.remotesFetch release.remoteId = .ok remote)
    (hnet : resolveFilename remote release = some none)
    (hcreate : w.createOk = true)
    (hfetch : w.fetch = .ok chunks) :
    ∃ res updates rest,
      update_device_with_release w device release flags true = some res
      ∧ res.events
        = FlashEvent.downloadInitiate release.size
          :: (updates.map FlashEvent.downloadUpdate
            ++ FlashEvent.downloadComplete :: rest)
      ∧ List.Chain' (· ≤ ·) updates
      ∧ updates.getLastD 0
        = ((writtenChunks w.copyFailAfter chunks).map List.length).sum
      ∧ (∀ e ∈ rest,
          e = FlashEvent.verifyingChecksum ∨ e = FlashEvent.flashInProgress)
      ∧ res.events.countP (fun e => e == FlashEvent.downloadInitiate release.size) = 1
      ∧ res.events.countP (fun e => e == FlashEvent.downloadComplete) = 1 := by
  have key : ∃ (tail : List FlashEvent),
      (∀ e ∈ tail,
        e = FlashEvent.verifyingChecksum ∨ e = FlashEvent.flashInProgress)
      ∧ (update_device_with_release w device release flags true).map
          UpdateResult.events
        = some ([FlashEvent.downloadInitiate release.size]
            ++ downloadEvents true (writtenChunks w.copyFailAfter chunks)
            ++ tail) := by
    simp only [update_device_with_release, hlook, hnet]
    rw [if_neg (by simp [hcreate])]
    simp only [hfetch]
    cases hcf : w.copyFailAfter with
    | some k => exact ⟨[], by simp, by simp⟩
    | none =>
      dsimp only
      by_cases hs1 : w.seek1Ok = false
      · exact ⟨[], by simp, by rw [if_pos hs1]; simp⟩
      rw [if_neg hs1]
      cases hfb : find_best_checksum release.checksums with
      | some cs =>
        dsimp only
        by_cases hr : w.readOk = false
        · refine ⟨[FlashEvent.verifyingChecksum], by simp, ?_⟩
          rw [if_pos hr]
          simp
        rw [if_neg hr]
        by_cases hh : w.hash cs.strength (writtenChunks none chunks).flatten
            = cs.digest
        · rw [if_pos hh]
          dsimp only
          by_cases hs2 : w.seek2Ok = false
          · exact ⟨[FlashEvent.verifyingChecksum], by simp, by rw [if_pos hs2]; simp⟩
          rw [if_neg hs2]
          rcases Client.install w device.deviceId "(user)"
              (cache_path_from_uri (firmware_uri remote release.uri)) true
              (if device.onlyOffline = true then flags ||| InstallFlags.OFFLINE
                else flags) with ⟨res0, calls⟩
          refine ⟨[FlashEvent.verifyingChecksum, FlashEvent.flashInProgress], ?_, ?_⟩
          · intro e he
            rcases List.mem_cons.mp he with h | he2
            · exact Or.inl h
            · exact Or.inr (by simpa using he2)
          · simp
        · rw [if_neg hh]
          refine ⟨[FlashEvent.verifyingChecksum], by simp, ?_⟩
          simp
      | none =>
        dsimp only
        by_cases hs2 : w.seek2Ok = false
        · exact ⟨[FlashEvent.verifyingChecksum], by simp, by rw [if_pos hs2]; simp⟩
        rw [if_neg hs2]
        rcases Client.install w device.deviceId "(user)"
            (cache_path_from_uri (firmware_uri remote release.uri)) true
            (if device.onlyOffline = true then flags ||| InstallFlags.OFFLINE
              else flags) with ⟨res0, calls⟩
        refine ⟨[FlashEvent.verifyingChecksum, FlashEvent.flashInProgress], ?_, ?_⟩
        · intro e he
          rcases List.mem_cons.mp he with h | he2
          · exact Or.inl h
          · exact Or.inr (by simpa using he2)
        · simp
  obtain ⟨tail, htail, hev⟩ := key
  obtain ⟨res, hres⟩ : ∃ res,
      update_device_with_release w device release flags true = some res := by
    cases hu : update_device_with_release w device release flags true with
    | none => rw [hu] at hev; cases hev
    | some r => exact ⟨r, rfl⟩
  have hev' : res.events
      = [FlashEvent.downloadInitiate release.size]
        ++ downloadEvents true (writtenChunks w.copyFailAfter chunks) ++ tail := by
    rw [hres] at hev
    simpa using hev
  have hdec : res.events
      = FlashEvent.downloadInitiate release.size
        :: ((cumSums 0 ((writtenChunks w.copyFailAfter chunks).map List.length)).map
            FlashEvent.downloadUpdate
          ++ FlashEvent.downloadComplete :: tail) := by
    rw [hev']
    simp [downloadEvents]
  refine ⟨res, cumSums 0 ((writtenChunks w.copyFailAfter chunks).map List.length),
    tail, hres, hdec, cumSums_chain' _ _, ?_, htail, ?_, ?_⟩
  · simpa using cumSums_getLastD 0 ((writtenChunks w.copyFailAfter chunks).map List.length)
  · rw [hdec]
    exact (countP_events release.size _ tail htail).1
  · rw [hdec]
    exact (countP_events release.size _ tail htail).2

/-- C4 witness: a concrete two-chunk download of sizes 2 and 1 — the event
sequence decomposes as one DownloadInitiate, the cumulative progress reports,
one DownloadComplete, and the later stages. -/
theorem C4_download_progress_witness :
    ∃ res updates rest,
      update_device_with_release
        ⟨.ok [⟨"r", true, .download, none, none, [], none, none⟩], true,
          .ok [[1, 2], [3]], none, true, true, true, true, true, fun _ c => c⟩
        ⟨"d", "n", false⟩ ⟨"1.0", 3, [104, 47, 120], [], "r"⟩ 0 true = some res
      ∧ res.events
        = FlashEvent.downloadInitiate 3
          :: (updates.map FlashEvent.downloadUpdate
            ++ FlashEvent.downloadComplete :: rest)
      ∧ List.Chain' (· ≤ ·) updates
      ∧ updates.getLastD 0 = ((writtenChunks none [[1, 2], [3]]).map List.length).sum
      ∧ (∀ e ∈ rest,
          e = FlashEvent.verifyingChecksum ∨ e = FlashEvent.flashInProgress)
      ∧ res.events.countP (fun e => e == FlashEvent.downloadInitiate 3) = 1
      ∧ res.events.countP (fun e => e == FlashEvent.downloadComplete) = 1 :=
  C4_download_progress
    ⟨.ok [⟨"r", true, .download, none, none, [], none, none⟩], true,
      .ok [[1, 2], [3]], none, true, true, true, true, true, fun _ c => c⟩
    ⟨"d", "n", false⟩ ⟨"1.0", 3, [104, 47, 120], [], "r"⟩ 0
    ⟨"r", true, .download, none, none, [], none, none⟩ [[1, 2], [3]]
    rfl rfl rfl rfl

end Fwupd
